import Mathlib

/-!
# go-postgres-sysbench: a shallow embedding of `main.go`

The program is a command-line driver that opens one PostgreSQL connection and
runs the operations selected by boolean flags.  Everything outside the file
(the random source, the `database/sql` connection and the store behind it,
standard output, the process exit) is made explicit in a `World`:

* `rand`   : the raw values the random source is going to yield, in order;
* `oracle` : what the store is going to answer to the successive requests;
* `txDone` : whether the transaction handle has been committed or rolled back;
* `trace`  : the externally visible events so far.

A Go function becomes a `Prog α := World → Outcome α`; an outcome is a normal
return, a process exit (`os.Exit`, reached through `log.Fatal`), or a panic.

The answers of the store are arbitrary.  Two facts about what stands behind
`database/sql` are not in `main.go`; where a theorem needs one, it is a
hypothesis of that theorem: a statement sent on a transaction whose previous
row is unread is not accepted (`acceptsOverUnreadRow`), and a commit is refused
once a statement of its transaction was refused
(`commitRefusedAfterFailure`).  The records the store holds are followed on
`Store`, a model of the table taken from the specification.
-/

namespace PgSysbench

/-! ## Definitions -/

/-- Go `error`: `none` is `nil`. -/
abbrev GoError := Option String

/-- Go `len` of a string: its number of bytes. -/
def len (s : String) : Nat := s.utf8ByteSize

/-- Go slice expression `s[lo:hi]` on a string, by byte offsets; `none` is the
run-time panic raised when the bounds are out of range.  (The only string that
is sliced, `allCharacters`, is ASCII, so every offset is a character
boundary.) -/
def goSlice (s : String) (lo hi : Int) : Option String :=
  if 0 ≤ lo ∧ lo ≤ hi ∧ hi ≤ (len s : Int) then
    some (s.extract ⟨lo.toNat⟩ ⟨hi.toNat⟩)
  else none

/-- The constant `allCharacters` (main.go, line 34). -/
def allCharacters : String := "qazwsxedcrfvYUIOPmnjklQWERT123456786"

/-- `time.Second`, in nanoseconds (`time.Duration` is an integer count of
nanoseconds). -/
def Second : Int := 1000000000

/-- User 模型 (`CreatedAt` is kept as a number of seconds). -/
structure User where
  ID : Int
  Name : String
  Email : String
  CreatedAt : Int
deriving DecidableEq

/-- The zero value `User{}`. -/
def User.zero : User := ⟨0, "", "", 0⟩

/-- The parsed command line: the values the flag variables point to after
`fset.Parse`. -/
structure Flags where
  host : String
  port : String
  user : String
  password : String
  dbname : String
  recreate : Bool
  delall : Bool
  delone : Bool
  insertone : Bool
  selectone : Bool
  selectall : Bool
  updateone : Bool
  usetrans : Bool
  usetwophase : Bool
  holdconn : Bool
  help : Bool
deriving DecidableEq

/-- The defaults declared in `initFlagSet`. -/
def Flags.default : Flags :=
  { host := "127.0.0.1", port := "5432", user := "linpin", password := "",
    dbname := "postgres", recreate := false, delall := false, delone := false,
    insertone := false, selectone := false, selectall := false,
    updateone := false, usetrans := false, usetwophase := false,
    holdconn := false, help := false }

/-- The SQL statements of the program, with their parameters. -/
inductive Stmt where
  | dropUsers
  | createUsers
  | insert (name email : String)
  | selectByID (id : Int)
  | selectAll
  | update (name email : String) (id : Int)
  | delete (id : Int)
  | deleteAll
deriving DecidableEq

/-- One row of a result set together with what scanning it into a `User`
gives. -/
inductive Row where
  | bad (msg : String)
  | good (u : User)
deriving DecidableEq

/-- What the store answers to one request: an error, or success with the rows
of the result set (empty for statements that return none). -/
inductive Reply where
  | err (msg : String)
  | ok (rows : List Row)
deriving DecidableEq

/-- The Go `error` carried by a reply. -/
def Reply.error : Reply → GoError
  | .err m => some m
  | .ok _ => none

/-- Arguments of the print and log calls. -/
inductive Val where
  | str (s : String)
  | int (i : Int)
  | user (u : User)
  | err (e : GoError)
deriving DecidableEq

/-- The functions of `main.go` that `main` calls to run an operation. -/
inductive Fn where
  | createTable
  | createUser
  | getUserByID
  | updateUser
  | getAllUsers
  | deleteUser
  | deleteAllUsers
  | createUserWithTransaction
  | createUserWithTransaction2
deriving DecidableEq

/-- Externally visible events: what is printed and logged, the delay, the
requests sent through `database/sql` with the answer each one got, and the
outcome of each `Scan`.  The event `call fn` marks the entry of the function
`fn`; it has no effect of its own. -/
inductive Event where
  | usage
  | logPrintln (args : List Val)
  | logFatal (args : List Val)
  | fmtPrintln (s : String)
  | fmtPrintf (format : String) (args : List Val)
  | sleep (d : Int)
  | call (fn : Fn)
  | sqlOpen (dsn : String) (r : Reply)
  | dbPing (r : Reply)
  | dbClose (r : Reply)
  | dbExec (s : Stmt) (r : Reply)
  | dbQueryRow (s : Stmt) (r : Reply)
  | dbQuery (s : Stmt) (r : Reply)
  | scan (e : GoError)
  | rowsClose
  | dbBegin (r : Reply)
  | txQueryRow (s : Stmt) (r : Reply)
  | txCommit (r : Reply)
  | txRollback (r : Reply)
deriving DecidableEq

/-- The state of everything outside the program. -/
structure World where
  rand : Nat → Nat
  oracle : Nat → Reply
  txDone : Bool
  trace : List Event

/-- How a call ends: it returns, the process exits (`os.Exit`), or it
panics. -/
inductive Outcome (α : Type) where
  | ret (a : α) (w : World)
  | exit (code : Nat) (w : World)
  | panic (w : World)

/-- The world an outcome leaves behind. -/
def Outcome.world {α : Type} : Outcome α → World
  | .ret _ w => w
  | .exit _ w => w
  | .panic w => w

/-- A Go function with result type `α`. -/
abbrev Prog (α : Type) := World → Outcome α

/-- Sequencing: a process exit or a panic skips the rest. -/
def Prog.bind {α β : Type} (p : Prog α) (k : α → Prog β) : Prog β := fun w =>
  match p w with
  | .ret a w1 => k a w1
  | .exit c w1 => .exit c w1
  | .panic w1 => .panic w1

instance : Monad Prog where
  pure a := fun w => .ret a w
  bind := Prog.bind

/-- Go `defer d` followed by `body`: `d` runs when the function returns or
panics; it does not run when the process exits through `os.Exit`. -/
def withDefer {α : Type} (body : Prog α) (d : Prog Unit) : Prog α := fun w =>
  match body w with
  | .ret a w1 =>
    match d w1 with
    | .ret _ w2 => .ret a w2
    | .exit c w2 => .exit c w2
    | .panic w2 => .panic w2
  | .panic w1 =>
    match d w1 with
    | .ret _ w2 => .panic w2
    | .exit c w2 => .exit c w2
    | .panic w2 => .panic w2
  | .exit c w1 => .exit c w1

/-- Record an event. -/
def emit (e : Event) : Prog Unit := fun w =>
  .ret () { w with trace := w.trace ++ [e] }

/-- Send one request to the store: take its next answer and record the
event. -/
def ask (mk : Reply → Event) : Prog Reply := fun w =>
  .ret (w.oracle 0)
    { w with oracle := fun k => w.oracle (k + 1), trace := w.trace ++ [mk (w.oracle 0)] }

/-- The call `os.Exit(code)`. -/
def osExit {α : Type} (code : Nat) : Prog α := fun w => .exit code w

/-- The call `log.Fatal(args...)`: print, then `os.Exit(1)`. -/
def logFatal {α : Type} (args : List Val) : Prog α := fun w =>
  .exit 1 { w with trace := w.trace ++ [.logFatal args] }

/-- The call `rand.Intn(n)`: panics when `n <= 0`, otherwise yields a value in
`[0, n)` drawn from the random source. -/
def Intn (n : Int) : Prog Int := fun w =>
  if n ≤ 0 then .panic w
  else .ret (Int.ofNat (w.rand 0 % n.toNat)) { w with rand := fun k => w.rand (k + 1) }

/-- The method `(*sql.Row).Scan` on the row of a `QueryRow`. -/
def rowScan (r : Reply) : Prog (User × GoError) :=
  match r with
  | .err m => do emit (.scan (some m)); pure (User.zero, some m)
  | .ok [] => do
    emit (.scan (some "sql: no rows in result set"))
    pure (User.zero, some "sql: no rows in result set")
  | .ok (.bad m :: _) => do emit (.scan (some m)); pure (User.zero, some m)
  | .ok (.good u :: _) => do emit (.scan none); pure (u, none)

/-- The method `(*sql.Tx).Commit`: the handle is done afterwards, whatever the
answer. -/
def txCommit : Prog GoError := fun w =>
  if w.txDone then .ret (some "sql: transaction has already been committed or rolled back") w
  else
    .ret (w.oracle 0).error
      { w with oracle := fun k => w.oracle (k + 1), txDone := true,
               trace := w.trace ++ [.txCommit (w.oracle 0)] }

/-- The method `(*sql.Tx).Rollback`: on a handle that is done it returns
`sql.ErrTxDone` without reaching the store. -/
def txRollback : Prog GoError := fun w =>
  if w.txDone then .ret (some "sql: transaction has already been committed or rolled back") w
  else
    .ret (w.oracle 0).error
      { w with oracle := fun k => w.oracle (k + 1), txDone := true,
               trace := w.trace ++ [.txRollback (w.oracle 0)] }

/-- The method `(*sql.DB).Begin`: on success a fresh transaction handle. -/
def dbBegin : Prog GoError := fun w =>
  match w.oracle 0 with
  | .err m =>
    .ret (some m)
      { w with oracle := fun k => w.oracle (k + 1), trace := w.trace ++ [.dbBegin (.err m)] }
  | .ok rs =>
    .ret none
      { w with oracle := fun k => w.oracle (k + 1), txDone := false,
               trace := w.trace ++ [.dbBegin (.ok rs)] }

/-- The connection descriptor `psqlInfo` computed at the head of `initDB`. -/
def psqlInfo (f : Flags) : String :=
  if len f.password != 0 then
    "host=" ++ f.host ++ " port=" ++ f.port ++ " user=" ++ f.user ++ " password=" ++ f.password ++
      " dbname=" ++ f.dbname ++ " sslmode=disable"
  else
    "host=" ++ f.host ++ " port=" ++ f.port ++ " user=" ++ f.user ++
      " dbname=" ++ f.dbname ++ " sslmode=disable"

/-- initDB 初始化数据库连接 -/
def initDB (f : Flags) : Prog Unit := do
  emit (.logPrintln [.str "connection string:", .str (psqlInfo f)])
  let r ← ask (.sqlOpen (psqlInfo f))
  if r.error.isSome then
    logFatal [.str "Failed to open database:", .err r.error]
  let r ← ask .dbPing
  if r.error.isSome then
    logFatal [.str "Failed to connect to database:", .err r.error]
  emit (.fmtPrintln "Successfully connected to PostgreSQL!")

/-- createTable 创建用户表 -/
def createTable : Prog Unit := do
  emit (.call .createTable)
  let r ← ask (.dbExec .dropUsers)
  if r.error.isSome then
    logFatal [.str "Failed to create table:", .err r.error]
  let r ← ask (.dbExec .createUsers)
  if r.error.isSome then
    logFatal [.str "Failed to create table:", .err r.error]
  emit (.fmtPrintln "Table created successfully")

/-- createUser 插入用户: the `*sql.Row` returned by `db.QueryRow` is dropped. -/
def createUser (name email : String) : Prog (Int × GoError) := do
  emit (.call .createUser)
  let _ ← ask (.dbQueryRow (.insert name email))
  return (0, none)

/-- getUserByID 查询用户 -/
def getUserByID (id : Int) : Prog (User × GoError) := do
  emit (.call .getUserByID)
  let r ← ask (.dbQueryRow (.selectByID id))
  let (user, err) ← rowScan r
  if err.isSome then
    return (User.zero, err)
  return (user, none)

/-- The loop `for rows.Next() { ... }` of `getAllUsers`, over the rows of the
result set; `users` is the slice accumulated so far. -/
def getAllUsers.loop : List Row → List User → Prog (List User × GoError)
  | [], users => pure (users, none)
  | .bad m :: _, _ => do
    emit (.scan (some m))
    pure ([], some m)
  | .good user :: rest, users => do
    emit (.scan none)
    getAllUsers.loop rest (users ++ [user])

/-- getAllUsers 获取所有用户 -/
def getAllUsers : Prog (List User × GoError) := do
  emit (.call .getAllUsers)
  let r ← ask (.dbQuery .selectAll)
  match r with
  | .err m => return ([], some m)
  | .ok rows => withDefer (getAllUsers.loop rows []) (emit .rowsClose)

/-- updateUser 更新用户 -/
def updateUser (id : Int) (name email : String) : Prog GoError := do
  emit (.call .updateUser)
  let r ← ask (.dbExec (.update name email id))
  return r.error

/-- deleteUser 删除用户 -/
def deleteUser (id : Int) : Prog GoError := do
  emit (.call .deleteUser)
  let r ← ask (.dbExec (.delete id))
  return r.error

/-- deleteAllUsers 删除用户 -/
def deleteAllUsers : Prog GoError := do
  emit (.call .deleteAllUsers)
  let r ← ask (.dbExec .deleteAll)
  return r.error

/-- The function `randomInt`. -/
def randomInt (min max : Int) : Prog Int := do
  let r ← Intn (max - min + 1)
  return r + min

/-- The function `randomName`; an out-of-range slice panics. -/
def randomName : Prog String := do
  let startPos ← randomInt 0 ((len allCharacters : Int) - 10)
  let nameLen ← randomInt 5 10
  match goSlice allCharacters startPos (startPos + nameLen) with
  | some s => return s
  | none => fun w => .panic w

/-- createUserWithTransaction 使用事务创建用户 (one insert).  The test after the
insert reads `err`, the variable assigned by `db.Begin`. -/
def createUserWithTransaction (name email : String) : Prog GoError := do
  emit (.call .createUserWithTransaction)
  let err ← dbBegin
  if err.isSome then
    return err
  withDefer (do
    let _ ← ask (.txQueryRow (.insert name email))
    if err.isSome then
      return err
    txCommit) (do let _ ← txRollback; pure ())

/-- The loop `for i := 0; i < 3; i++ { ... }` of `createUserWithTransaction2`,
by the number `n` of iterations that remain; `err` is the variable assigned by
`db.Begin`.  The result is `some e` when the body executes `return e`. -/
def createUserWithTransaction2.loop (err : GoError) : Nat → Prog (Option GoError)
  | 0 => pure none
  | n + 1 => do
    let name ← randomName
    let _ ← ask (.txQueryRow (.insert name (name ++ "@example.com")))
    if err.isSome then
      return (some err)
    emit (.fmtPrintf "Created user with name: %s in transaction \n" [.str name])
    createUserWithTransaction2.loop err n

/-- createUserWithTransaction 使用事务创建用户 (three inserts). -/
def createUserWithTransaction2 : Prog GoError := do
  emit (.call .createUserWithTransaction2)
  let err ← dbBegin
  if err.isSome then
    return err
  withDefer (do
    match ← createUserWithTransaction2.loop err 3 with
    | some e => return e
    | none => txCommit) (do let _ ← txRollback; pure ())

/-- The tail of `initFlagSet`: with `help`, print the usage and `os.Exit(0)`. -/
def initFlagSet (f : Flags) : Prog Unit := do
  if f.help then
    emit .usage
    osExit 0

/-- The block `if *holdconn { ... }` of `main`. -/
def main.holdconn (f : Flags) : Prog Unit := do
  if f.holdconn then
    emit (.sleep (Second * 20))

/-- The block `if *recreate { ... }` of `main`. -/
def main.recreate (f : Flags) : Prog Unit := do
  if f.recreate then
    createTable

/-- The block `if *insertone { ... }` of `main`. -/
def main.insertone (f : Flags) : Prog Unit := do
  if f.insertone then
    let name ← randomName
    let (id, err) ← createUser name (name ++ "@example.com")
    if err.isSome then
      logFatal [.str "Failed to create user:", .err err]
    emit (.fmtPrintf "Created user with ID: %d name: %s\n" [.int id, .str name])

/-- The block `if *selectone { ... }` of `main`. -/
def main.selectone (f : Flags) : Prog Unit := do
  if f.selectone then
    let id ← randomInt 1 10
    let (user, err) ← getUserByID id
    if err.isSome then
      logFatal [.str "Failed to get user:", .err err]
    emit (.fmtPrintf "User: %+v\n" [.user user])

/-- The block `if *updateone { ... }` of `main`. -/
def main.updateone (f : Flags) : Prog Unit := do
  if f.updateone then
    let id ← randomInt 1 10
    let name ← randomName
    let err ← updateUser id name (name ++ "@example.com")
    if err.isSome then
      logFatal [.str "Failed to update user:", .err err]

/-- The loop `for _, u := range users { ... }` of `main`. -/
def main.printUsers : List User → Prog Unit
  | [] => pure ()
  | u :: rest => do
    emit (.fmtPrintf "- %s (%s)\n" [.str u.Name, .str u.Email])
    main.printUsers rest

/-- The block `if *selectall { ... }` of `main`. -/
def main.selectall (f : Flags) : Prog Unit := do
  if f.selectall then
    let (users, err) ← getAllUsers
    if err.isSome then
      logFatal [.str "Failed to get users:", .err err]
    emit (.fmtPrintln "All users:")
    main.printUsers users

/-- The block `if *delone { ... }` of `main`. -/
def main.delone (f : Flags) : Prog Unit := do
  if f.delone then
    let id ← randomInt 1 10
    let err ← deleteUser id
    if err.isSome then
      logFatal [.str "Failed to delete user with id: ", .int id]
    emit (.fmtPrintf "delete user with id: %d \n" [.int id])

/-- The block `if *delall { ... }` of `main`. -/
def main.delall (f : Flags) : Prog Unit := do
  if f.delall then
    let err ← deleteAllUsers
    if err.isSome then
      logFatal [.str "Failed to delete user with id: "]
    emit (.fmtPrintf "delete all users\n" [])

/-- The block `if *usetrans { ... }` of `main`. -/
def main.usetrans (f : Flags) : Prog Unit := do
  if f.usetrans then
    let name ← randomName
    let err ← createUserWithTransaction name (name ++ "@example.com")
    if err.isSome then
      logFatal [.str "Failed to create user with transaction:", .err err]
    emit (.fmtPrintf "Created user with name: %s in transaction \n" [.str name])

/-- The block `if *usetwophase { ... }` of `main`. -/
def main.usetwophase (f : Flags) : Prog Unit := do
  if f.usetwophase then
    let err ← createUserWithTransaction2
    if err.isSome then
      logFatal [.str "Failed to create user with transaction:", .err err]

/-- The statements of `main` after `defer db.Close()`. -/
def main.body (f : Flags) : Prog Unit := do
  main.holdconn f
  main.recreate f
  main.insertone f
  main.selectone f
  main.updateone f
  main.selectall f
  main.delone f
  main.delall f
  main.usetrans f
  main.usetwophase f

/-- The function `main`. -/
def main (f : Flags) : Prog Unit := do
  initFlagSet f
  initDB f
  withDefer (main.body f) (do let _ ← ask .dbClose; pure ())

/-- The exit status of the process: 0 when `main` returns, the argument of
`os.Exit` when it is called, 2 after a panic. -/
def exitCode {α : Type} : Outcome α → Nat
  | .ret _ _ => 0
  | .exit c _ => c
  | .panic _ => 2

/-- The world at the start of a process: a random source yielding `rs` and then
zeros, a store answering `replies` and then plain successes, no transaction
handle, an empty trace. -/
def World.ofLists (rs : List Nat) (replies : List Reply) : World :=
  { rand := fun k => rs.getD k 0, oracle := fun k => replies.getD k (.ok []),
    txDone := true, trace := [] }

/-- The world after `n` values have been drawn from the random source. -/
def World.drawn (w : World) (n : Nat) : World :=
  { w with rand := fun k => w.rand (k + n) }

/-- The slice `randomName` takes when the random source yields the raw values
`r1` (start position, `Intn(27) + 0`) and `r2` (length, `Intn(6) + 5`); `none`
is the slice panic.  That `randomName` computes exactly this is
`randomName_eq`. -/
def randomNameOf (r1 r2 : Nat) : Option String :=
  goSlice allCharacters (Int.ofNat (r1 % 27) + 0)
    (Int.ofNat (r1 % 27) + 0 + (Int.ofNat (r2 % 6) + 5))

/-- The name generated from the raw values `r1`, `r2` (the empty string stands
for the panic, which `randomNameOf_spec` excludes). -/
def nameOf (r1 r2 : Nat) : String := (randomNameOf r1 r2).getD ""

/-- Every string `randomName` can return, listed by start position 0..26
(outer) and length 5..10 (inner): entry `i` has start `i / 6` and length
`i % 6 + 5`. -/
def randomNameOutputs : List String :=
  (List.range 162).map fun i => nameOf (i / 6) (i % 6)

/-- The world after the store has answered `n` requests. -/
def World.answered (w : World) (n : Nat) : World :=
  { w with oracle := fun k => w.oracle (k + n) }

/-- Append events to the trace of a world. -/
def World.logged (w : World) (evs : List Event) : World :=
  { w with trace := w.trace ++ evs }

/-- Is the event an insert issued inside a transaction? -/
def Event.isTxInsert : Event → Bool
  | .txQueryRow (.insert _ _) _ => true
  | _ => false

/-- The events of a run of `createUserWithTransaction2` in which `db.Begin`
succeeds, from the world `w` in which it is called. -/
def batchEvents (w : World) : List Event :=
  [Event.call .createUserWithTransaction2,
   Event.dbBegin (w.oracle 0),
   Event.txQueryRow (.insert (nameOf (w.rand 0) (w.rand 1))
     (nameOf (w.rand 0) (w.rand 1) ++ "@example.com")) (w.oracle 1),
   Event.fmtPrintf "Created user with name: %s in transaction \n"
     [.str (nameOf (w.rand 0) (w.rand 1))],
   Event.txQueryRow (.insert (nameOf (w.rand 2) (w.rand 3))
     (nameOf (w.rand 2) (w.rand 3) ++ "@example.com")) (w.oracle 2),
   Event.fmtPrintf "Created user with name: %s in transaction \n"
     [.str (nameOf (w.rand 2) (w.rand 3))],
   Event.txQueryRow (.insert (nameOf (w.rand 4) (w.rand 5))
     (nameOf (w.rand 4) (w.rand 5) ++ "@example.com")) (w.oracle 3),
   Event.fmtPrintf "Created user with name: %s in transaction \n"
     [.str (nameOf (w.rand 4) (w.rand 5))],
   Event.txCommit (w.oracle 4)]

/-- The operations of `main`, in the order of its blocks: the hold-open delay
and the nine functions. -/
inductive Op where
  | holdDelay
  | run (fn : Fn)
deriving DecidableEq

/-- The operation an event starts, if it starts one. -/
def Event.op? : Event → Option Op
  | .sleep _ => some .holdDelay
  | .call fn => some (.run fn)
  | _ => none

/-- The sequence of operations in a list of events. -/
def ops (evs : List Event) : List Op := evs.filterMap Event.op?

/-- Is the event the close of the connection? -/
def Event.isClose : Event → Bool
  | .dbClose _ => true
  | _ => false

/-- Did the request of the event fail: the store answered with an error, or a
scan reported one? -/
def Event.failed : Event → Bool
  | .sqlOpen _ r => r.error.isSome
  | .dbPing r => r.error.isSome
  | .dbClose r => r.error.isSome
  | .dbExec _ r => r.error.isSome
  | .dbQueryRow _ r => r.error.isSome
  | .dbQuery _ r => r.error.isSome
  | .scan e => e.isSome
  | .dbBegin r => r.error.isSome
  | .txQueryRow _ r => r.error.isSome
  | .txCommit r => r.error.isSome
  | .txRollback r => r.error.isSome
  | _ => false

/-- A specification of `p` run after the events `pre`: from any world, `p`
appends events, none of them a close of the connection; if it returns `a`, the
events so far satisfy `Q a`; if it ends the process, the status is 1 and one of
the events so far is a failed request; it does not panic. -/
def Spec {α : Type} (pre : List Event) (p : Prog α) (Q : α → List Event → Prop) : Prop :=
  ∀ w : World, ∃ evs : List Event,
    (p w).world.trace = w.trace ++ evs ∧ (∀ e ∈ evs, e.isClose = false) ∧
    match p w with
    | .ret a _ => Q a (pre ++ evs)
    | .exit c _ => c = 1 ∧ ∃ e ∈ pre ++ evs, e.failed = true
    | .panic _ => False

/-- After the events `pre`, the operation `op` has been started, and a non-nil
`err` is backed by a failed request. -/
def Did (pre : List Event) (op : Op) (err : GoError) (evs : List Event) : Prop :=
  ops evs = ops pre ++ [op] ∧ (err.isSome = true → ∃ e ∈ evs, e.failed = true)

/-- Does the command line select the operation? -/
def Flags.selects (f : Flags) : Op → Bool
  | .holdDelay => f.holdconn
  | .run .createTable => f.recreate
  | .run .createUser => f.insertone
  | .run .getUserByID => f.selectone
  | .run .updateUser => f.updateone
  | .run .getAllUsers => f.selectall
  | .run .deleteUser => f.delone
  | .run .deleteAllUsers => f.delall
  | .run .createUserWithTransaction => f.usetrans
  | .run .createUserWithTransaction2 => f.usetwophase

/-- The ten operations of `main`, in the order of its blocks. -/
def mainOrder : List Op :=
  [.holdDelay, .run .createTable, .run .createUser, .run .getUserByID, .run .updateUser,
   .run .getAllUsers, .run .deleteUser, .run .deleteAllUsers,
   .run .createUserWithTransaction, .run .createUserWithTransaction2]

/-- The random source yields the names `qazws`, `qazws`, `azwsx`; the store
accepts `Begin` and the first insert; the second insert fails, and so do the
third insert and the commit. -/
def refusedBatch : World :=
  World.ofLists [0, 0, 0, 0, 1, 0]
    [.ok [], .ok [], .err "driver: bad connection", .err "driver: bad connection",
     .err "driver: bad connection"]

/-- The command line `-insertone -selectall`. -/
def insertThenList : Flags := { Flags.default with insertone := true, selectall := true }

/-- A store that accepts the connection, rejects the insert and answers the
listing with no rows; the random source yields zeros. -/
def rejectInsert : World :=
  World.ofLists []
    [.ok [], .ok [], .err "pq: duplicate key value violates unique constraint", .ok []]

/-- Does the list of events contain a `tx.QueryRow` that was answered with
success although the row of an earlier `tx.QueryRow` of the same transaction
had not been read?  `unread` says whether such a row is outstanding where the
list starts.  Both transactional functions drop the `*sql.Row` that
`tx.QueryRow` returns, so a row, once requested, stays unread until the
transaction ends.  The driver `main.go` links (`github.com/lib/pq`, line 12)
cannot run a statement on a connection whose previous result is unread: it
fails the request.  A run against that driver therefore contains no such
event. -/
def acceptsOverUnreadRow : Bool → List Event → Bool
  | _, [] => false
  | _, .dbBegin _ :: es => acceptsOverUnreadRow false es
  | unread, .txQueryRow _ r :: es =>
    (unread && r.error.isNone) || acceptsOverUnreadRow true es
  | unread, _ :: es => acceptsOverUnreadRow unread es

/-- The events are not those of a run in which every request succeeds and
which the driver can produce: one request failed, or one was accepted over an
unread row. -/
def Troubled (evs : List Event) : Prop :=
  (∃ e ∈ evs, e.failed = true) ∨ acceptsOverUnreadRow false evs = true

/-- A store that accepts every request and returns no rows; the random source
yields zeros. -/
def World.quiet : World := World.ofLists [] []

/-- The command line `-selectone`. -/
def selectOnly : Flags := { Flags.default with selectone := true }

/-- Does the list of events contain a successful `sql.Open`? -/
def opensConnection (evs : List Event) : Bool :=
  evs.any fun e => match e with
    | .sqlOpen _ (.ok _) => true
    | _ => false

/-- Does the list of events contain a close of the connection? -/
def closesConnection (evs : List Event) : Bool := evs.any Event.isClose

/-! ## Theorems -/

theorem utf8ByteSize_go_eq_zero (cs : List Char) :
    String.utf8ByteSize.go cs = 0 ↔ cs = [] := by
  cases cs with
  | nil => simp [String.utf8ByteSize.go]
  | cons c cs =>
    have h := Char.utf8Size_pos c
    simp [String.utf8ByteSize.go]
    omega

theorem len_eq_zero_iff (s : String) : len s = 0 ↔ s = "" := by
  cases s with
  | mk cs =>
    show String.utf8ByteSize.go cs = 0 ↔ _
    rw [utf8ByteSize_go_eq_zero]
    constructor
    · intro h; subst h; rfl
    · intro h; exact congrArg String.data h

theorem psqlInfo_empty (f : Flags) (h : f.password = "") :
    psqlInfo f = "host=" ++ f.host ++ " port=" ++ f.port ++ " user=" ++ f.user ++
      " dbname=" ++ f.dbname ++ " sslmode=disable" := by
  have h0 : len f.password = 0 := (len_eq_zero_iff _).2 h
  simp [psqlInfo, h0]

theorem psqlInfo_nonempty (f : Flags) (h : f.password ≠ "") :
    psqlInfo f = "host=" ++ f.host ++ " port=" ++ f.port ++ " user=" ++ f.user ++
      " password=" ++ f.password ++ " dbname=" ++ f.dbname ++ " sslmode=disable" := by
  have h0 : len f.password ≠ 0 := fun h1 => h ((len_eq_zero_iff _).1 h1)
  simp [psqlInfo, h0]

/-- C1: the descriptor built by `initDB` is
`host=H port=P user=U dbname=D sslmode=disable` when the password is empty and
`host=H port=P user=U password=W dbname=D sslmode=disable` otherwise; both end
with `sslmode=disable`; and this is the string `initDB` logs and hands to
`sql.Open`. -/
theorem initDB_descriptor (f : Flags) (w : World) :
    (f.password = "" →
      psqlInfo f = "host=" ++ f.host ++ " port=" ++ f.port ++ " user=" ++ f.user ++
        " dbname=" ++ f.dbname ++ " sslmode=disable") ∧
    (f.password ≠ "" →
      psqlInfo f = "host=" ++ f.host ++ " port=" ++ f.port ++ " user=" ++ f.user ++
        " password=" ++ f.password ++ " dbname=" ++ f.dbname ++ " sslmode=disable") ∧
    (∃ pre, psqlInfo f = pre ++ "sslmode=disable") ∧
    (∃ rest, (initDB f w).world.trace =
      w.trace ++ Event.logPrintln [.str "connection string:", .str (psqlInfo f)] ::
        Event.sqlOpen (psqlInfo f) (w.oracle 0) :: rest) := by
  refine ⟨psqlInfo_empty f, psqlInfo_nonempty f, ?_, ?_⟩
  · by_cases h : f.password = ""
    · refine ⟨"host=" ++ f.host ++ " port=" ++ f.port ++ " user=" ++ f.user ++
        " dbname=" ++ f.dbname ++ " ", ?_⟩
      rw [psqlInfo_empty f h, String.append_assoc _ " " "sslmode=disable"]
      rfl
    · refine ⟨"host=" ++ f.host ++ " port=" ++ f.port ++ " user=" ++ f.user ++
        " password=" ++ f.password ++ " dbname=" ++ f.dbname ++ " ", ?_⟩
      rw [psqlInfo_nonempty f h, String.append_assoc _ " " "sslmode=disable"]
      rfl
  · cases h0 : w.oracle 0 with
    | err m =>
      exact ⟨_, by simp [initDB, bind, Prog.bind, emit, ask, logFatal, Outcome.world, h0, Reply.error]; rfl⟩
    | ok rs =>
      cases h1 : w.oracle 1 with
      | err m =>
        exact ⟨_, by simp [initDB, bind, Prog.bind, emit, ask, logFatal, Outcome.world, h0, h1, Reply.error]; rfl⟩
      | ok rs1 =>
        exact ⟨_, by simp [initDB, bind, Prog.bind, emit, ask, logFatal, Outcome.world, h0, h1, Reply.error]; rfl⟩

theorem randomName_eq (w : World) :
    randomName w =
      match randomNameOf (w.rand 0) (w.rand 1) with
      | some s => .ret s (w.drawn 2)
      | none => .panic (w.drawn 2) := by
  have hl : len allCharacters = 36 := by decide
  simp only [randomName, randomInt, Intn, bind, Prog.bind, pure, hl, randomNameOf, World.drawn]
  norm_num
  generalize goSlice allCharacters _ _ = o
  cases o <;> rfl

/-- All 27 × 6 choices of start position and length give an in-range slice of
5 to 10 ASCII letters and digits. -/
theorem slice_table :
    ∀ a < 27, ∀ b < 6, ∃ s,
      goSlice allCharacters (Int.ofNat a + 0) (Int.ofNat a + 0 + (Int.ofNat b + 5)) = some s ∧
      5 ≤ len s ∧ len s ≤ 10 ∧ s.data.all Char.isAlphanum = true ∧
      0 ≤ a ∧ a + (b + 5) ≤ len allCharacters := by
  decide

theorem randomNameOf_spec (r1 r2 : Nat) :
    ∃ s, randomNameOf r1 r2 = some s ∧ 5 ≤ len s ∧ len s ≤ 10 ∧
      s.data.all Char.isAlphanum = true := by
  obtain ⟨s, h1, h2, h3, h4, _⟩ :=
    slice_table (r1 % 27) (Nat.mod_lt _ (by decide)) (r2 % 6) (Nat.mod_lt _ (by decide))
  exact ⟨s, h1, h2, h3, h4⟩

theorem randomName_ret (w : World) :
    randomName w = .ret (nameOf (w.rand 0) (w.rand 1)) (w.drawn 2) := by
  obtain ⟨s, hs, _⟩ := randomNameOf_spec (w.rand 0) (w.rand 1)
  rw [randomName_eq, nameOf, hs]
  rfl

/-- C6: whatever the random source yields, `randomName` returns (the slice of
`allCharacters` ends at or before its last byte, so there is no panic) a
string of 5 to 10 bytes, all ASCII letters or digits, having drawn two values;
and the insert-one step of `main` passes the pair (s, s + "@example.com") to
the insert. -/
theorem randomName_shape (f : Flags) (w : World) :
    ∃ s, randomName w = .ret s (w.drawn 2) ∧
      5 ≤ len s ∧ len s ≤ 10 ∧ (∀ c ∈ s.data, c.isAlphanum = true) ∧
      w.rand 0 % 27 + (w.rand 1 % 6 + 5) ≤ len allCharacters ∧
      (f.insertone = true →
        (main.insertone f w).world.trace = w.trace ++
          [Event.call .createUser,
           Event.dbQueryRow (.insert s (s ++ "@example.com")) (w.oracle 0),
           Event.fmtPrintf "Created user with ID: %d name: %s\n" [.int 0, .str s]]) := by
  obtain ⟨s, hs, h5, h10, hall⟩ := randomNameOf_spec (w.rand 0) (w.rand 1)
  obtain ⟨_, _, _, _, _, _, hhi⟩ :=
    slice_table (w.rand 0 % 27) (Nat.mod_lt _ (by decide)) (w.rand 1 % 6) (Nat.mod_lt _ (by decide))
  have hret : randomName w = .ret s (w.drawn 2) := by
    rw [randomName_ret, nameOf, hs]; rfl
  refine ⟨s, hret, h5, h10, ?_, hhi, ?_⟩
  · simpa [List.all_eq_true] using hall
  · intro hf
    simp [main.insertone, hf, bind, Prog.bind, hret, createUser, emit, ask, pure,
      Outcome.world, World.drawn]

/-- C6, at the default flags with `insertone` and a random source yielding 1
and 2: the name is "azwsxed". -/
theorem randomName_shape_witness :
    ∃ s, randomName (World.ofLists [1, 2] []) = .ret s ((World.ofLists [1, 2] []).drawn 2) ∧
      5 ≤ len s ∧ len s ≤ 10 ∧ (∀ c ∈ s.data, c.isAlphanum = true) ∧
      (World.ofLists [1, 2] []).rand 0 % 27 + ((World.ofLists [1, 2] []).rand 1 % 6 + 5)
        ≤ len allCharacters ∧
      (main.insertone { Flags.default with insertone := true }
          (World.ofLists [1, 2] [])).world.trace = (World.ofLists [1, 2] []).trace ++
          [Event.call .createUser,
           Event.dbQueryRow (.insert s (s ++ "@example.com")) ((World.ofLists [1, 2] []).oracle 0),
           Event.fmtPrintf "Created user with ID: %d name: %s\n" [.int 0, .str s]] := by
  obtain ⟨s, h1, h2, h3, h4, h5, h6⟩ :=
    randomName_shape { Flags.default with insertone := true } (World.ofLists [1, 2] [])
  exact ⟨s, h1, h2, h3, h4, h5, h6 rfl⟩

set_option maxRecDepth 1000000 in
set_option maxHeartbeats 4000000 in
theorem randomNameOutputs_nodup : randomNameOutputs.Nodup := by decide

theorem nameOf_mod (r1 r2 : Nat) : nameOf r1 r2 = nameOf (r1 % 27) (r2 % 6) := by
  simp [nameOf, randomNameOf, Nat.mod_mod]

theorem nameOf_mem (r1 r2 : Nat) : nameOf r1 r2 ∈ randomNameOutputs := by
  have h1 : r1 % 27 < 27 := Nat.mod_lt _ (by decide)
  have h2 : r2 % 6 < 6 := Nat.mod_lt _ (by decide)
  rw [nameOf_mod]
  refine List.mem_map.2 ⟨r1 % 27 * 6 + r2 % 6, List.mem_range.2 (by omega), ?_⟩
  have e1 : (r1 % 27 * 6 + r2 % 6) / 6 = r1 % 27 := by omega
  have e2 : (r1 % 27 * 6 + r2 % 6) % 6 = r2 % 6 := by omega
  show nameOf ((r1 % 27 * 6 + r2 % 6) / 6) ((r1 % 27 * 6 + r2 % 6) % 6) = _
  rw [e1, e2]

theorem nameOf_injective (a b a' b' : Nat) (ha : a < 27) (hb : b < 6) (ha' : a' < 27)
    (hb' : b' < 6) (h : nameOf a b = nameOf a' b') : a = a' ∧ b = b' := by
  have hinj := List.inj_on_of_nodup_map randomNameOutputs_nodup
    (x := a * 6 + b) (List.mem_range.2 (by omega)) (y := a' * 6 + b') (List.mem_range.2 (by omega))
  have e1 : (a * 6 + b) / 6 = a := by omega
  have e2 : (a * 6 + b) % 6 = b := by omega
  have e3 : (a' * 6 + b') / 6 = a' := by omega
  have e4 : (a' * 6 + b') % 6 = b' := by omega
  have := hinj (by simp only [e1, e2, e3, e4]; exact h)
  omega

/-- C10: `randomName` can return exactly the 162 strings of
`randomNameOutputs` (27 start positions times 6 lengths, each a slice of
`allCharacters`, no two choices giving the same string); so among any 163
generated names two are equal, and so are the e-mails derived from them. -/
theorem randomName_outputs :
    randomNameOutputs.length = 162 ∧ randomNameOutputs.Nodup ∧
    (∀ w : World, ∃ s ∈ randomNameOutputs, randomName w = .ret s (w.drawn 2)) ∧
    (∀ s ∈ randomNameOutputs, ∃ w : World, randomName w = .ret s (w.drawn 2)) ∧
    (∀ s ∈ randomNameOutputs, ∃ a b : Nat, a < 27 ∧ b < 6 ∧
      goSlice allCharacters (Int.ofNat a) (Int.ofNat a + (Int.ofNat b + 5)) = some s) ∧
    (∀ a b a' b' : Nat, a < 27 → b < 6 → a' < 27 → b' < 6 →
      nameOf a b = nameOf a' b' → a = a' ∧ b = b') ∧
    (∀ ws : Fin 163 → World, ∃ i j : Fin 163, i ≠ j ∧ ∃ s,
      randomName (ws i) = .ret s ((ws i).drawn 2) ∧
      randomName (ws j) = .ret s ((ws j).drawn 2) ∧
      main.insertone { Flags.default with insertone := true } (ws i) =
        (do let _ ← createUser s (s ++ "@example.com")
            emit (.fmtPrintf "Created user with ID: %d name: %s\n" [.int 0, .str s]))
          ((ws i).drawn 2) ∧
      main.insertone { Flags.default with insertone := true } (ws j) =
        (do let _ ← createUser s (s ++ "@example.com")
            emit (.fmtPrintf "Created user with ID: %d name: %s\n" [.int 0, .str s]))
          ((ws j).drawn 2)) := by
  refine ⟨by simp [randomNameOutputs], randomNameOutputs_nodup, ?_, ?_, ?_, ?_, ?_⟩
  · intro w
    exact ⟨_, nameOf_mem _ _, randomName_ret w⟩
  · intro s hs
    obtain ⟨i, _, rfl⟩ := List.mem_map.1 hs
    refine ⟨World.ofLists [i / 6, i % 6] [], ?_⟩
    rw [randomName_ret]
    rfl
  · intro s hs
    obtain ⟨i, hi, rfl⟩ := List.mem_map.1 hs
    have hi' : i < 162 := List.mem_range.1 hi
    obtain ⟨t, ht, _⟩ := slice_table (i / 6) (by omega) (i % 6) (Nat.mod_lt _ (by decide))
    refine ⟨i / 6, i % 6, by omega, Nat.mod_lt _ (by decide), ?_⟩
    have e1 : i / 6 % 27 = i / 6 := Nat.mod_eq_of_lt (by omega)
    have hn : nameOf (i / 6) (i % 6) = t := by
      unfold nameOf randomNameOf
      rw [e1, Nat.mod_mod, ht]
      rfl
    rw [hn]
    simpa only [Int.add_zero] using ht
  · intro a b a' b' ha hb ha' hb' h
    exact nameOf_injective a b a' b' ha hb ha' hb' h
  · intro ws
    have hcard : randomNameOutputs.toFinset.card < (Finset.univ : Finset (Fin 163)).card := by
      calc randomNameOutputs.toFinset.card ≤ randomNameOutputs.length := List.toFinset_card_le _
        _ = 162 := by simp [randomNameOutputs]
        _ < (Finset.univ : Finset (Fin 163)).card := by simp
    obtain ⟨i, _, j, _, hij, h⟩ := Finset.exists_ne_map_eq_of_card_lt_of_maps_to hcard
      (f := fun i => nameOf ((ws i).rand 0) ((ws i).rand 1))
      (fun i _ => List.mem_toFinset.2 (nameOf_mem _ _))
    refine ⟨i, j, hij, nameOf ((ws i).rand 0) ((ws i).rand 1), randomName_ret _, ?_, ?_, ?_⟩
    · rw [randomName_ret]; exact congrArg (fun s => Outcome.ret s _) h.symm
    · simp [main.insertone, bind, Prog.bind, randomName_ret, createUser, emit, ask, pure]
    · have h' : nameOf ((ws j).rand 0) ((ws j).rand 1) = nameOf ((ws i).rand 0) ((ws i).rand 1) :=
        h.symm
      simp [main.insertone, bind, Prog.bind, randomName_ret, createUser, emit, ask, pure, h']

/-- C10 at concrete inputs: start 3 with length 7 and start 4 with length 7
give different names, and worlds whose random source yields `i, i` for
`i = 0..162` contain a repeated name. -/
theorem randomName_outputs_witness :
    nameOf 3 2 ≠ nameOf 4 2 ∧
    ∃ i j : Fin 163, i ≠ j ∧ ∃ s,
      randomName (World.ofLists [i.val, i.val] []) =
        .ret s ((World.ofLists [i.val, i.val] []).drawn 2) ∧
      randomName (World.ofLists [j.val, j.val] []) =
        .ret s ((World.ofLists [j.val, j.val] []).drawn 2) := by
  refine ⟨fun h => absurd
    (randomName_outputs.2.2.2.2.2.1 3 2 4 2 (by decide) (by decide) (by decide) (by decide) h).1
    (by decide), ?_⟩
  obtain ⟨i, j, hij, s, h1, h2, _⟩ :=
    randomName_outputs.2.2.2.2.2.2 (fun i => World.ofLists [i.val, i.val] [])
  exact ⟨i, j, hij, s, h1, h2⟩

/-- C7: whatever the store answers to the insert (an error, or a row carrying
the identifier it assigned), `createUser` issues exactly one insert, never
reads the answer and returns identifier 0 with a nil error; the insert-one
step of `main` therefore reports identifier 0. -/
theorem createUser_returns_zero (name email : String) (f : Flags) (w : World) :
    createUser name email w =
      .ret (0, none)
        ((w.answered 1).logged
          [Event.call .createUser, Event.dbQueryRow (.insert name email) (w.oracle 0)]) ∧
    main.insertone { f with insertone := true } w =
      .ret ()
        (((w.drawn 2).answered 1).logged
          [Event.call .createUser,
           Event.dbQueryRow
             (.insert (nameOf (w.rand 0) (w.rand 1))
               (nameOf (w.rand 0) (w.rand 1) ++ "@example.com")) (w.oracle 0),
           Event.fmtPrintf "Created user with ID: %d name: %s\n"
             [.int 0, .str (nameOf (w.rand 0) (w.rand 1))]]) := by
  constructor
  · simp [createUser, bind, Prog.bind, emit, ask, pure, World.answered, World.logged]
  · simp [main.insertone, createUser, bind, Prog.bind, emit, ask, pure, randomName_ret,
      World.answered, World.logged, World.drawn]

theorem createUserWithTransaction2_begin_ok (w : World) (rs : List Row)
    (h : w.oracle 0 = .ok rs) :
    createUserWithTransaction2 w =
      .ret (w.oracle 4).error
        { ((w.drawn 6).answered 5).logged (batchEvents w) with txDone := true } := by
  simp [createUserWithTransaction2, createUserWithTransaction2.loop, withDefer, bind, Prog.bind,
    emit, ask, pure, randomName_ret, dbBegin, txCommit, txRollback, h,
    World.answered, World.logged, World.drawn, batchEvents]

theorem createUserWithTransaction2_begin_err (w : World) (m : String)
    (h : w.oracle 0 = .err m) :
    createUserWithTransaction2 w =
      .ret (some m)
        ((w.answered 1).logged
          [Event.call .createUserWithTransaction2, Event.dbBegin (.err m)]) := by
  simp [createUserWithTransaction2, bind, Prog.bind, emit, pure, dbBegin, h,
    World.answered, World.logged]

theorem createUserWithTransaction2_loop_nil (n : Nat) (w : World) :
    ∃ w', createUserWithTransaction2.loop none n w = .ret none w' := by
  induction n generalizing w with
  | zero => exact ⟨w, rfl⟩
  | succ n ih =>
    obtain ⟨w', hw'⟩ := ih
      (((w.drawn 2).answered 1).logged
        [Event.txQueryRow (.insert (nameOf (w.rand 0) (w.rand 1))
            (nameOf (w.rand 0) (w.rand 1) ++ "@example.com")) (w.oracle 0),
         Event.fmtPrintf "Created user with name: %s in transaction \n"
           [.str (nameOf (w.rand 0) (w.rand 1))]])
    refine ⟨w', ?_⟩
    rw [← hw']
    simp [createUserWithTransaction2.loop, bind, Prog.bind, emit, ask, pure, randomName_ret,
      World.answered, World.logged, World.drawn]

/-- C9: in `createUserWithTransaction2`, when `db.Begin` succeeds the loop
never returns early (its test reads the nil error of `db.Begin`), exactly three
inserts are issued in the transaction whatever the store answers to each, and
the function returns the result of `tx.Commit`; when `db.Begin` fails, nothing
else is sent and its error is returned. -/
theorem createUserWithTransaction2_issues_three (w : World) :
    (∀ rs, w.oracle 0 = .ok rs →
      createUserWithTransaction2 w =
        .ret (w.oracle 4).error
          { ((w.drawn 6).answered 5).logged (batchEvents w) with txDone := true } ∧
      (batchEvents w).countP Event.isTxInsert = 3 ∧
      (batchEvents w).getLast? = some (Event.txCommit (w.oracle 4)) ∧
      ∀ (n : Nat) (w0 : World), ∃ w', createUserWithTransaction2.loop none n w0 = .ret none w') ∧
    (∀ m, w.oracle 0 = .err m →
      createUserWithTransaction2 w =
        .ret (some m)
          ((w.answered 1).logged
            [Event.call .createUserWithTransaction2, Event.dbBegin (.err m)])) := by
  refine ⟨fun rs h => ⟨createUserWithTransaction2_begin_ok w rs h, ?_, ?_, ?_⟩,
    fun m h => createUserWithTransaction2_begin_err w m h⟩
  · simp [batchEvents, Event.isTxInsert, List.countP_cons]
  · simp [batchEvents]
  · exact createUserWithTransaction2_loop_nil

/-- C9 at two stores: one on which the second insert, the third insert and
the commit fail (three inserts are issued all the same, and the call returns
the error of the commit), and one that refuses `Begin`. -/
theorem createUserWithTransaction2_issues_three_witness :
    (createUserWithTransaction2 refusedBatch =
      .ret (some "driver: bad connection")
        { ((refusedBatch.drawn 6).answered 5).logged (batchEvents refusedBatch)
            with txDone := true }) ∧
    (createUserWithTransaction2 (World.ofLists [] [.err "connection refused"]) =
      .ret (some "connection refused")
        (((World.ofLists [] [.err "connection refused"]).answered 1).logged
          [Event.call .createUserWithTransaction2, Event.dbBegin (.err "connection refused")])) :=
  ⟨((createUserWithTransaction2_issues_three _).1 [] rfl).1,
   (createUserWithTransaction2_issues_three _).2 "connection refused" rfl⟩

theorem spec_pure {α : Type} {pre : List Event} {Q : α → List Event → Prop} (a : α)
    (h : Q a pre) : Spec pre (pure a : Prog α) Q := by
  intro w
  exact ⟨[], by simp [Pure.pure, Outcome.world], by simp, by simpa [Pure.pure] using h⟩

theorem spec_bind {α β : Type} {pre : List Event} {p : Prog α} {k : α → Prog β}
    {Q1 : α → List Event → Prop} {Q : β → List Event → Prop}
    (hp : Spec pre p Q1) (hk : ∀ a evs, Q1 a evs → Spec evs (k a) Q) :
    Spec pre (p >>= k) Q := by
  intro w
  obtain ⟨evs1, ht1, hc1, h1⟩ := hp w
  show ∃ evs, (Prog.bind p k w).world.trace = _ ∧ _ ∧ (match Prog.bind p k w with
    | .ret a _ => Q a (pre ++ evs) | .exit c _ => c = 1 ∧ ∃ e ∈ pre ++ evs, e.failed = true
    | .panic _ => False)
  unfold Prog.bind
  cases hpw : p w with
  | ret a w1 =>
    rw [hpw] at h1 ht1
    obtain ⟨evs2, ht2, hc2, h2⟩ := hk a _ h1 w1
    simp only [Outcome.world] at ht1
    refine ⟨evs1 ++ evs2, ?_, ?_, ?_⟩
    · simp only [ht2, ht1, List.append_assoc]
    · intro e he
      rcases List.mem_append.1 he with he | he
      · exact hc1 e he
      · exact hc2 e he
    · simp only [← List.append_assoc]
      exact h2
  | exit c w1 =>
    rw [hpw] at h1 ht1
    exact ⟨evs1, ht1, hc1, h1⟩
  | panic w1 =>
    rw [hpw] at h1
    exact h1.elim

theorem spec_weaken {α : Type} {pre : List Event} {p : Prog α} {Q Q' : α → List Event → Prop}
    (hp : Spec pre p Q) (h : ∀ a evs, Q a evs → Q' a evs) : Spec pre p Q' := by
  intro w
  obtain ⟨evs, ht, hc, h1⟩ := hp w
  refine ⟨evs, ht, hc, ?_⟩
  cases hpw : p w with
  | ret a w1 => rw [hpw] at h1; exact h _ _ h1
  | exit c w1 => rw [hpw] at h1; exact h1
  | panic w1 => rw [hpw] at h1; exact h1.elim

theorem spec_emit {pre : List Event} {Q : Unit → List Event → Prop} (e : Event)
    (hc : e.isClose = false) (h : Q () (pre ++ [e])) : Spec pre (emit e) Q := by
  intro w
  exact ⟨[e], rfl, by simpa using hc, h⟩

theorem spec_ask {pre : List Event} {Q : Reply → List Event → Prop} (mk : Reply → Event)
    (hc : ∀ r, (mk r).isClose = false) (h : ∀ r, Q r (pre ++ [mk r])) : Spec pre (ask mk) Q := by
  intro w
  exact ⟨[mk (w.oracle 0)], rfl, by simpa using hc _, h _⟩

theorem spec_logFatal {α : Type} {pre : List Event} {Q : α → List Event → Prop}
    (args : List Val) (h : ∃ e ∈ pre, e.failed = true) :
    Spec pre (logFatal args : Prog α) Q := by
  intro w
  obtain ⟨e, he, hf⟩ := h
  exact ⟨[.logFatal args], rfl, by simp [Event.isClose],
    rfl, e, List.mem_append_left _ he, hf⟩

theorem randomInt_ret (min max : Int) (h : 0 < max - min + 1) (w : World) :
    randomInt min max w =
      .ret (Int.ofNat (w.rand 0 % (max - min + 1).toNat) + min) (w.drawn 1) := by
  have h' : ¬ (max - min + 1 ≤ 0) := by omega
  simp [randomInt, Intn, Bind.bind, Prog.bind, Pure.pure, h', World.drawn]

theorem spec_randomInt {pre : List Event} {Q : Int → List Event → Prop} (min max : Int)
    (hm : 0 < max - min + 1) (h : ∀ i, Q i pre) : Spec pre (randomInt min max) Q := by
  intro w
  refine ⟨[], ?_, by simp, ?_⟩
  · rw [randomInt_ret min max hm]; simp [Outcome.world, World.drawn]
  · rw [randomInt_ret min max hm]; simpa using h _

theorem spec_randomName {pre : List Event} {Q : String → List Event → Prop}
    (h : ∀ s, Q s pre) : Spec pre randomName Q := by
  intro w
  refine ⟨[], ?_, by simp, ?_⟩
  · rw [randomName_ret]; simp [Outcome.world, World.drawn]
  · rw [randomName_ret]; simpa using h _

theorem spec_emit_bind {β : Type} {pre : List Event} {Q : β → List Event → Prop} (e : Event)
    {k : Unit → Prog β} (hc : e.isClose = false) (h : Spec (pre ++ [e]) (k ()) Q) :
    Spec pre (emit e >>= k) Q :=
  spec_bind (spec_emit (Q := fun _ evs => evs = pre ++ [e]) e hc rfl)
    (fun _ _ hq => hq ▸ h)

theorem spec_ask_bind {β : Type} {pre : List Event} {Q : β → List Event → Prop}
    (mk : Reply → Event) {k : Reply → Prog β} (hc : ∀ r, (mk r).isClose = false)
    (h : ∀ r, Spec (pre ++ [mk r]) (k r) Q) : Spec pre (ask mk >>= k) Q :=
  spec_bind (spec_ask (Q := fun r evs => evs = pre ++ [mk r]) mk hc (fun _ => rfl))
    (fun r _ hq => hq ▸ h r)

theorem spec_randomInt_bind {β : Type} {pre : List Event} {Q : β → List Event → Prop}
    (min max : Int) {k : Int → Prog β} (hm : 0 < max - min + 1)
    (h : ∀ i, Spec pre (k i) Q) : Spec pre (randomInt min max >>= k) Q :=
  spec_bind (spec_randomInt (Q := fun _ evs => evs = pre) min max hm (fun _ => rfl))
    (fun i _ hq => hq ▸ h i)

theorem spec_randomName_bind {β : Type} {pre : List Event} {Q : β → List Event → Prop}
    {k : String → Prog β} (h : ∀ s, Spec pre (k s) Q) : Spec pre (randomName >>= k) Q :=
  spec_bind (spec_randomName (Q := fun _ evs => evs = pre) (fun _ => rfl))
    (fun s _ hq => hq ▸ h s)

theorem spec_pure_bind {α β : Type} {pre : List Event} {Q : β → List Event → Prop} (a : α)
    {k : α → Prog β} (h : Spec pre (k a) Q) : Spec pre (pure a >>= k) Q := h

theorem spec_logFatal_bind {α β : Type} {pre : List Event} {Q : β → List Event → Prop}
    (args : List Val) {k : α → Prog β} (h : ∃ e ∈ pre, e.failed = true) :
    Spec pre (logFatal args >>= k) Q :=
  spec_bind (spec_logFatal (Q := fun _ _ => False) args h) (fun _ _ hq => hq.elim)

theorem ops_append (a b : List Event) : ops (a ++ b) = ops a ++ ops b := by
  simp [ops, List.filterMap_append]

theorem ops_snoc (evs : List Event) (e : Event) : ops (evs ++ [e]) = ops evs ++ e.op?.toList := by
  rw [ops_append]
  cases h : e.op? <;> simp [ops, List.filterMap_cons, h]

theorem spec_createTable (pre : List Event) :
    Spec pre createTable (fun _ evs => ops evs = ops pre ++ [.run .createTable]) := by
  unfold createTable
  refine spec_emit_bind _ rfl (spec_ask_bind _ (fun _ => rfl) fun r => ?_)
  dsimp only
  split
  · rename_i h
    exact spec_logFatal_bind _ ⟨.dbExec .dropUsers r, by simp, h⟩
  · refine spec_pure_bind _ (spec_ask_bind _ (fun _ => rfl) fun r2 => ?_)
    split
    · rename_i h
      exact spec_logFatal_bind _ ⟨.dbExec .createUsers r2, by simp, h⟩
    · refine spec_pure_bind _ (spec_emit _ rfl ?_)
      simp [ops_append, ops, Event.op?]

theorem spec_createUser (pre : List Event) (name email : String) :
    Spec pre (createUser name email)
      (fun r evs => r = (0, none) ∧ ops evs = ops pre ++ [.run .createUser]) := by
  unfold createUser
  refine spec_emit_bind _ rfl (spec_ask_bind _ (fun _ => rfl) fun r => ?_)
  exact spec_pure _ ⟨rfl, by simp [ops_append, ops, Event.op?]⟩

theorem spec_rowScan (pre : List Event) (r : Reply) :
    Spec pre (rowScan r) (fun a evs => evs = pre ++ [.scan a.2]) := by
  unfold rowScan
  split
  · exact spec_emit_bind _ rfl (spec_pure _ rfl)
  · exact spec_emit_bind _ rfl (spec_pure _ rfl)
  · exact spec_emit_bind _ rfl (spec_pure _ rfl)
  · exact spec_emit_bind _ rfl (spec_pure _ rfl)

theorem spec_getUserByID (pre : List Event) (id : Int) :
    Spec pre (getUserByID id) (fun r evs => Did pre (.run .getUserByID) r.2 evs) := by
  unfold getUserByID
  refine spec_emit_bind _ rfl (spec_ask_bind _ (fun _ => rfl) fun r => ?_)
  refine spec_bind (spec_rowScan _ r) ?_
  rintro ⟨user, err⟩ evs rfl
  dsimp only
  split
  · rename_i h
    exact spec_pure _ ⟨by simp [ops_append, ops, Event.op?], fun _ => ⟨.scan err, by simp, h⟩⟩
  · exact spec_pure_bind _ (spec_pure _ ⟨by simp [ops_append, ops, Event.op?], by simp⟩)

theorem spec_getAllUsers_loop (rows : List Row) :
    ∀ (users : List User) (pre : List Event),
      Spec pre (getAllUsers.loop rows users)
        (fun r evs => ops evs = ops pre ∧ (r.2.isSome = true → ∃ e ∈ evs, e.failed = true)) := by
  induction rows with
  | nil =>
    intro users pre
    exact spec_pure _ ⟨rfl, by simp⟩
  | cons row rest ih =>
    intro users pre
    cases row with
    | bad m =>
      unfold getAllUsers.loop
      exact spec_emit_bind _ rfl (spec_pure _
        ⟨by simp [ops_append, ops, Event.op?], fun _ => ⟨.scan (some m), by simp, rfl⟩⟩)
    | good u =>
      unfold getAllUsers.loop
      refine spec_emit_bind _ rfl (spec_weaken (ih _ _) ?_)
      intro a evs h
      refine ⟨?_, h.2⟩
      rw [h.1]
      simp [ops_append, ops, Event.op?]

theorem spec_withDefer_emit {α : Type} {pre : List Event} {body : Prog α}
    {Q1 Q : α → List Event → Prop} (e : Event) (hc : e.isClose = false)
    (hb : Spec pre body Q1) (h : ∀ a evs, Q1 a evs → Q a (evs ++ [e])) :
    Spec pre (withDefer body (emit e)) Q := by
  intro w
  obtain ⟨evs, ht, hcl, h1⟩ := hb w
  unfold withDefer
  cases hbw : body w with
  | ret a w1 =>
    rw [hbw] at h1 ht
    simp only [Outcome.world] at ht
    refine ⟨evs ++ [e], ?_, ?_, ?_⟩
    · simp [emit, Outcome.world, ht]
    · intro x hx
      rcases List.mem_append.1 hx with hx | hx
      · exact hcl x hx
      · simp at hx; subst hx; exact hc
    · simp only [emit, ← List.append_assoc]
      exact h _ _ h1
  | exit c w1 =>
    rw [hbw] at h1 ht
    exact ⟨evs, ht, hcl, h1⟩
  | panic w1 =>
    rw [hbw] at h1
    exact h1.elim

theorem spec_getAllUsers (pre : List Event) :
    Spec pre getAllUsers (fun r evs => Did pre (.run .getAllUsers) r.2 evs) := by
  unfold getAllUsers
  refine spec_emit_bind _ rfl (spec_ask_bind _ (fun _ => rfl) fun r => ?_)
  cases r with
  | err m =>
    exact spec_pure _ ⟨by simp [ops_append, ops, Event.op?],
      fun _ => ⟨.dbQuery .selectAll (.err m), by simp, rfl⟩⟩
  | ok rows =>
    refine spec_withDefer_emit _ rfl (spec_getAllUsers_loop rows [] _) ?_
    intro a evs h
    refine ⟨?_, fun ha => ?_⟩
    · rw [ops_append, h.1]; simp [ops_append, ops, Event.op?]
    · obtain ⟨e, he, hf⟩ := h.2 ha
      exact ⟨e, List.mem_append_left _ he, hf⟩

theorem spec_updateUser (pre : List Event) (id : Int) (name email : String) :
    Spec pre (updateUser id name email) (fun r evs => Did pre (.run .updateUser) r evs) := by
  unfold updateUser
  refine spec_emit_bind _ rfl (spec_ask_bind _ (fun _ => rfl) fun r => ?_)
  exact spec_pure _ ⟨by simp [ops_append, ops, Event.op?],
    fun h => ⟨.dbExec (.update name email id) r, by simp, h⟩⟩

theorem spec_deleteUser (pre : List Event) (id : Int) :
    Spec pre (deleteUser id) (fun r evs => Did pre (.run .deleteUser) r evs) := by
  unfold deleteUser
  refine spec_emit_bind _ rfl (spec_ask_bind _ (fun _ => rfl) fun r => ?_)
  exact spec_pure _ ⟨by simp [ops_append, ops, Event.op?],
    fun h => ⟨.dbExec (.delete id) r, by simp, h⟩⟩

theorem spec_deleteAllUsers (pre : List Event) :
    Spec pre deleteAllUsers (fun r evs => Did pre (.run .deleteAllUsers) r evs) := by
  unfold deleteAllUsers
  refine spec_emit_bind _ rfl (spec_ask_bind _ (fun _ => rfl) fun r => ?_)
  exact spec_pure _ ⟨by simp [ops_append, ops, Event.op?],
    fun h => ⟨.dbExec .deleteAll r, by simp, h⟩⟩

theorem createUserWithTransaction_begin_ok (name email : String) (w : World) (rs : List Row)
    (h : w.oracle 0 = .ok rs) :
    createUserWithTransaction name email w =
      .ret (w.oracle 2).error
        { (w.answered 3).logged
            [Event.call .createUserWithTransaction, Event.dbBegin (w.oracle 0),
             Event.txQueryRow (.insert name email) (w.oracle 1),
             Event.txCommit (w.oracle 2)] with txDone := true } := by
  simp [createUserWithTransaction, withDefer, bind, Prog.bind, emit, ask, pure, dbBegin,
    txCommit, txRollback, h, World.answered, World.logged]

theorem createUserWithTransaction_begin_err (name email : String) (w : World) (m : String)
    (h : w.oracle 0 = .err m) :
    createUserWithTransaction name email w =
      .ret (some m)
        ((w.answered 1).logged
          [Event.call .createUserWithTransaction, Event.dbBegin (.err m)]) := by
  simp [createUserWithTransaction, bind, Prog.bind, emit, pure, dbBegin, h,
    World.answered, World.logged]

theorem spec_createUserWithTransaction (pre : List Event) (name email : String) :
    Spec pre (createUserWithTransaction name email)
      (fun r evs => Did pre (.run .createUserWithTransaction) r evs) := by
  intro w
  cases h : w.oracle 0 with
  | err m =>
    rw [createUserWithTransaction_begin_err name email w m h]
    refine ⟨_, rfl, by simp [Event.isClose], ?_, fun _ => ?_⟩
    · simp [ops_append, ops, Event.op?]
    · exact ⟨.dbBegin (.err m), by simp, rfl⟩
  | ok rs =>
    rw [createUserWithTransaction_begin_ok name email w rs h]
    refine ⟨_, rfl, by simp [Event.isClose], ?_, fun he => ?_⟩
    · simp [ops_append, ops, Event.op?]
    · exact ⟨.txCommit (w.oracle 2), by simp, he⟩

theorem acceptsOverUnreadRow_mono (es : List Event) :
    acceptsOverUnreadRow false es = true → acceptsOverUnreadRow true es = true := by
  induction es with
  | nil => simp [acceptsOverUnreadRow]
  | cons e es ih => cases e <;> simp_all [acceptsOverUnreadRow]

theorem acceptsOverUnreadRow_append_left (es : List Event)
    (h : acceptsOverUnreadRow false es = true) (pre : List Event) :
    ∀ b, acceptsOverUnreadRow b (pre ++ es) = true := by
  induction pre with
  | nil =>
    intro b
    cases b
    · exact h
    · exact acceptsOverUnreadRow_mono es h
  | cons e pre ih =>
    intro b
    cases e <;> simp only [List.cons_append, acceptsOverUnreadRow, Bool.or_eq_true] <;>
      first
        | exact ih _
        | exact Or.inr (ih _)

theorem troubled_append_left {es : List Event} (h : Troubled es) (pre : List Event) :
    Troubled (pre ++ es) := by
  rcases h with ⟨e, he, hf⟩ | h
  · exact Or.inl ⟨e, List.mem_append_right _ he, hf⟩
  · exact Or.inr (acceptsOverUnreadRow_append_left es h pre false)

theorem batchEvents_troubled (w : World) : Troubled (batchEvents w) := by
  cases h : (w.oracle 2).error with
  | some m =>
    refine Or.inl ⟨.txQueryRow (.insert (nameOf (w.rand 2) (w.rand 3))
      (nameOf (w.rand 2) (w.rand 3) ++ "@example.com")) (w.oracle 2), by simp [batchEvents], ?_⟩
    simp [Event.failed, h]
  | none =>
    exact Or.inr (by simp [batchEvents, acceptsOverUnreadRow, h])

theorem spec_createUserWithTransaction2 (pre : List Event) :
    Spec pre createUserWithTransaction2
      (fun r evs => Did pre (.run .createUserWithTransaction2) r evs ∧ Troubled evs) := by
  intro w
  cases h : w.oracle 0 with
  | err m =>
    rw [createUserWithTransaction2_begin_err w m h]
    refine ⟨_, rfl, by simp [Event.isClose], ⟨?_, fun _ => ?_⟩, Or.inl ?_⟩
    · simp [ops_append, ops, Event.op?]
    · exact ⟨.dbBegin (.err m), by simp, rfl⟩
    · exact ⟨.dbBegin (.err m), by simp, rfl⟩
  | ok rs =>
    rw [createUserWithTransaction2_begin_ok w rs h]
    refine ⟨batchEvents w, rfl, by simp [batchEvents, Event.isClose], ⟨?_, fun he => ?_⟩, ?_⟩
    · simp [ops_append, ops, Event.op?, batchEvents]
    · exact ⟨.txCommit (w.oracle 4), by simp [batchEvents], he⟩
    · exact troubled_append_left (batchEvents_troubled w) pre

theorem spec_main_holdconn (pre : List Event) (f : Flags) :
    Spec pre (main.holdconn f)
      (fun _ evs => ops evs = ops pre ++ (if f.holdconn then [.holdDelay] else [])) := by
  unfold main.holdconn
  split
  · rename_i h
    exact spec_emit _ rfl (by simp [ops_append, ops, Event.op?, h])
  · rename_i h
    exact spec_pure _ (by simp [h])

theorem spec_main_recreate (pre : List Event) (f : Flags) :
    Spec pre (main.recreate f)
      (fun _ evs => ops evs = ops pre ++ (if f.recreate then [.run .createTable] else [])) := by
  unfold main.recreate
  split
  · rename_i h
    exact spec_weaken (spec_createTable pre) (fun _ evs hq => by simp [hq, h])
  · rename_i h
    exact spec_pure _ (by simp [h])

theorem spec_main_insertone (pre : List Event) (f : Flags) :
    Spec pre (main.insertone f)
      (fun _ evs => ops evs = ops pre ++ (if f.insertone then [.run .createUser] else [])) := by
  unfold main.insertone
  split
  · rename_i h
    refine spec_randomName_bind fun name => spec_bind (spec_createUser pre _ _) ?_
    rintro ⟨id, err⟩ evs ⟨hr, hq⟩
    dsimp only
    have he : err = none := congrArg Prod.snd hr
    subst he
    exact spec_pure_bind _ (spec_emit _ rfl (by simp [ops_snoc, Event.op?, hq, h]))
  · rename_i h
    exact spec_pure _ (by simp [h])

theorem spec_main_selectone (pre : List Event) (f : Flags) :
    Spec pre (main.selectone f)
      (fun _ evs => ops evs = ops pre ++ (if f.selectone then [.run .getUserByID] else [])) := by
  unfold main.selectone
  split
  · rename_i h
    refine spec_randomInt_bind 1 10 (by decide) fun id => spec_bind (spec_getUserByID pre id) ?_
    rintro ⟨user, err⟩ evs ⟨hq, hf⟩
    dsimp only
    split
    · rename_i he
      exact spec_logFatal_bind _ (hf he)
    · exact spec_pure_bind _ (spec_emit _ rfl (by simp [ops_snoc, Event.op?, hq, h]))
  · rename_i h
    exact spec_pure _ (by simp [h])

theorem spec_main_updateone (pre : List Event) (f : Flags) :
    Spec pre (main.updateone f)
      (fun _ evs => ops evs = ops pre ++ (if f.updateone then [.run .updateUser] else [])) := by
  unfold main.updateone
  split
  · rename_i h
    refine spec_randomInt_bind 1 10 (by decide) fun id => spec_randomName_bind fun name =>
      spec_bind (spec_updateUser pre id _ _) ?_
    rintro err evs ⟨hq, hf⟩
    split
    · rename_i he
      exact spec_logFatal _ (hf he)
    · exact spec_pure _ (by simp [hq, h])
  · rename_i h
    exact spec_pure _ (by simp [h])

theorem spec_main_printUsers (users : List User) :
    ∀ pre : List Event, Spec pre (main.printUsers users) (fun _ evs => ops evs = ops pre) := by
  induction users with
  | nil => intro pre; exact spec_pure _ rfl
  | cons u rest ih =>
    intro pre
    unfold main.printUsers
    refine spec_emit_bind _ rfl (spec_weaken (ih _) ?_)
    intro _ evs h
    rw [h]; simp [ops_append, ops, Event.op?]

theorem spec_main_selectall (pre : List Event) (f : Flags) :
    Spec pre (main.selectall f)
      (fun _ evs => ops evs = ops pre ++ (if f.selectall then [.run .getAllUsers] else [])) := by
  unfold main.selectall
  split
  · rename_i h
    refine spec_bind (spec_getAllUsers pre) ?_
    rintro ⟨users, err⟩ evs ⟨hq, hf⟩
    dsimp only
    split
    · rename_i he
      exact spec_logFatal_bind _ (hf he)
    · refine spec_pure_bind _ (spec_emit_bind _ rfl (spec_weaken (spec_main_printUsers users _) ?_))
      intro _ evs2 h2
      rw [h2]; simp [ops_snoc, Event.op?, hq, h]
  · rename_i h
    exact spec_pure _ (by simp [h])

theorem spec_main_delone (pre : List Event) (f : Flags) :
    Spec pre (main.delone f)
      (fun _ evs => ops evs = ops pre ++ (if f.delone then [.run .deleteUser] else [])) := by
  unfold main.delone
  split
  · rename_i h
    refine spec_randomInt_bind 1 10 (by decide) fun id => spec_bind (spec_deleteUser pre id) ?_
    rintro err evs ⟨hq, hf⟩
    dsimp only
    split
    · rename_i he
      exact spec_logFatal_bind _ (hf he)
    · exact spec_pure_bind _ (spec_emit _ rfl (by simp [ops_snoc, Event.op?, hq, h]))
  · rename_i h
    exact spec_pure _ (by simp [h])

theorem spec_main_delall (pre : List Event) (f : Flags) :
    Spec pre (main.delall f)
      (fun _ evs => ops evs = ops pre ++ (if f.delall then [.run .deleteAllUsers] else [])) := by
  unfold main.delall
  split
  · rename_i h
    refine spec_bind (spec_deleteAllUsers pre) ?_
    rintro err evs ⟨hq, hf⟩
    dsimp only
    split
    · rename_i he
      exact spec_logFatal_bind _ (hf he)
    · exact spec_pure_bind _ (spec_emit _ rfl (by simp [ops_snoc, Event.op?, hq, h]))
  · rename_i h
    exact spec_pure _ (by simp [h])

theorem spec_main_usetrans (pre : List Event) (f : Flags) :
    Spec pre (main.usetrans f)
      (fun _ evs => ops evs = ops pre ++
        (if f.usetrans then [.run .createUserWithTransaction] else [])) := by
  unfold main.usetrans
  split
  · rename_i h
    refine spec_randomName_bind fun name => spec_bind (spec_createUserWithTransaction pre _ _) ?_
    rintro err evs ⟨hq, hf⟩
    dsimp only
    split
    · rename_i he
      exact spec_logFatal_bind _ (hf he)
    · exact spec_pure_bind _ (spec_emit _ rfl (by simp [ops_snoc, Event.op?, hq, h]))
  · rename_i h
    exact spec_pure _ (by simp [h])

theorem spec_main_usetwophase (pre : List Event) (f : Flags) :
    Spec pre (main.usetwophase f)
      (fun _ evs => ops evs = ops pre ++
          (if f.usetwophase then [.run .createUserWithTransaction2] else []) ∧
        (f.usetwophase = true → Troubled evs)) := by
  unfold main.usetwophase
  split
  · rename_i h
    refine spec_bind (spec_createUserWithTransaction2 pre) ?_
    rintro err evs ⟨⟨hq, hf⟩, htr⟩
    split
    · rename_i he
      exact spec_logFatal _ (hf he)
    · exact spec_pure _ ⟨by simp [hq, h], fun _ => htr⟩
  · rename_i h
    exact spec_pure _ ⟨by simp [h], fun h' => absurd h' h⟩

theorem filter_cons_ite {α : Type} (p : α → Bool) (a : α) (l : List α) :
    (a :: l).filter p = (if p a then [a] else []) ++ l.filter p := by
  cases h : p a <;> simp [List.filter_cons, h]

theorem spec_main_body (pre : List Event) (f : Flags) :
    Spec pre (main.body f)
      (fun _ evs => ops evs = ops pre ++ mainOrder.filter f.selects ∧
        (f.usetwophase = true → Troubled evs)) := by
  unfold main.body
  refine spec_bind (spec_main_holdconn pre f) fun _ e1 h1 => ?_
  refine spec_bind (spec_main_recreate e1 f) fun _ e2 h2 => ?_
  refine spec_bind (spec_main_insertone e2 f) fun _ e3 h3 => ?_
  refine spec_bind (spec_main_selectone e3 f) fun _ e4 h4 => ?_
  refine spec_bind (spec_main_updateone e4 f) fun _ e5 h5 => ?_
  refine spec_bind (spec_main_selectall e5 f) fun _ e6 h6 => ?_
  refine spec_bind (spec_main_delone e6 f) fun _ e7 h7 => ?_
  refine spec_bind (spec_main_delall e7 f) fun _ e8 h8 => ?_
  refine spec_bind (spec_main_usetrans e8 f) fun _ e9 h9 => ?_
  refine spec_weaken (spec_main_usetwophase e9 f) fun _ e10 h10 => ⟨?_, h10.2⟩
  rw [h10.1, h9, h8, h7, h6, h5, h4, h3, h2, h1]
  simp only [mainOrder, filter_cons_ite, List.filter_nil, Flags.selects, List.append_assoc,
    List.append_nil]

theorem spec_initDB (pre : List Event) (f : Flags) :
    Spec pre (initDB f) (fun _ evs => ops evs = ops pre) := by
  unfold initDB
  refine spec_emit_bind _ rfl (spec_ask_bind _ (fun _ => rfl) fun r => ?_)
  dsimp only
  split
  · rename_i h
    exact spec_logFatal_bind _ ⟨.sqlOpen (psqlInfo f) r, by simp, h⟩
  · refine spec_pure_bind _ (spec_ask_bind _ (fun _ => rfl) fun r2 => ?_)
    split
    · rename_i h
      exact spec_logFatal_bind _ ⟨.dbPing r2, by simp, h⟩
    · refine spec_pure_bind _ (spec_emit _ rfl ?_)
      simp [ops_append, ops, Event.op?]

theorem main_help (f : Flags) (w : World) (h : f.help = true) :
    main f w = .exit 0 (w.logged [.usage]) := by
  simp [main, initFlagSet, h, bind, Prog.bind, emit, osExit, World.logged]

/-- The two ways a run of `main` without `help` can end: it returns, having
started exactly the selected operations and closed the connection last (and
with `usetwophase` the run is troubled); or the process exits with status 1
after a failed request, without a close. -/
theorem main_outcome (f : Flags) (w : World) (h : f.help = false) :
    ∃ evs : List Event, (∀ e ∈ evs, e.isClose = false) ∧
      ((∃ r w', main f w = .ret () w' ∧ w'.trace = w.trace ++ evs ++ [Event.dbClose r] ∧
          ops evs = mainOrder.filter f.selects ∧ (f.usetwophase = true → Troubled evs)) ∨
       (∃ w', main f w = .exit 1 w' ∧ w'.trace = w.trace ++ evs ∧
          ∃ e ∈ evs, e.failed = true)) := by
  obtain ⟨evs1, ht1, hc1, h1⟩ := spec_initDB [] f w
  cases hi : initDB f w with
  | ret a w1 =>
    rw [hi] at h1 ht1
    simp only [Outcome.world] at ht1
    obtain ⟨evs2, ht2, hc2, h2⟩ := spec_main_body ([] ++ evs1) f w1
    have hcl : ∀ e ∈ evs1 ++ evs2, e.isClose = false := by
      intro e he
      rcases List.mem_append.1 he with he | he
      · exact hc1 e he
      · exact hc2 e he
    cases hb : main.body f w1 with
    | ret b w2 =>
      rw [hb] at h2 ht2
      simp only [Outcome.world] at ht2
      refine ⟨evs1 ++ evs2, hcl, Or.inl ⟨w2.oracle 0,
        { w2 with oracle := fun k => w2.oracle (k + 1),
                  trace := w2.trace ++ [.dbClose (w2.oracle 0)] }, ?_, ?_, ?_, ?_⟩⟩
      · simp [main, initFlagSet, h, bind, Prog.bind, pure, withDefer, ask, hi, hb]
      · simp [ht2, ht1]
      · simp only [List.nil_append] at h2 h1
        rw [h2.1, h1]; rfl
      · simp only [List.nil_append] at h2
        exact h2.2
    | exit c w2 =>
      rw [hb] at h2 ht2
      simp only [Outcome.world] at ht2
      obtain ⟨hc, e, he, hf⟩ := h2
      refine ⟨evs1 ++ evs2, hcl, Or.inr ⟨w2, ?_, ?_, e, by simpa using he, hf⟩⟩
      · simp [main, initFlagSet, h, bind, Prog.bind, pure, withDefer, ask, hi, hb, hc]
      · simp [ht2, ht1]
    | panic w2 =>
      rw [hb] at h2
      exact h2.elim
  | exit c w1 =>
    rw [hi] at h1 ht1
    simp only [Outcome.world] at ht1
    obtain ⟨hc, e, he, hf⟩ := h1
    refine ⟨evs1, hc1, Or.inr ⟨w1, ?_, ht1, e, by simpa using he, hf⟩⟩
    simp [main, initFlagSet, h, bind, Prog.bind, pure, withDefer, ask, hi, hc]
  | panic w1 =>
    rw [hi] at h1
    exact h1.elim

theorem nameOf_zero : nameOf 0 0 = "qazws" := by decide

theorem nameOf_one : nameOf 1 0 = "azwsx" := by decide

/-- C8, evaluated: with `holdconn` the delay handed to `time.Sleep` is 20
seconds, not the 10 seconds of the usage text; without it there is no delay. -/
theorem holdconn_sleeps_twenty (f : Flags) (w : World) :
    main.holdconn { f with holdconn := true } w =
      .ret () (w.logged [Event.sleep (20 * Second)]) ∧
    (20 * Second ≠ 10 * Second) ∧
    main.holdconn { f with holdconn := false } w = .ret () w := by
  refine ⟨?_, by decide, ?_⟩
  · simp [main.holdconn, emit, World.logged, mul_comm]
  · simp [main.holdconn, pure]

/-- C3, evaluated on `-insertone -selectall` with a store that rejects the
insert: `createUser` drops the answer, so `main` reports the insert as done,
goes on to list the users, closes the connection and returns; the exit status
is 0. -/
theorem main_ignores_failed_insert :
    exitCode (main insertThenList rejectInsert) = 0 ∧
    (main insertThenList rejectInsert).world.trace =
      [Event.logPrintln [.str "connection string:",
          .str "host=127.0.0.1 port=5432 user=linpin dbname=postgres sslmode=disable"],
       Event.sqlOpen "host=127.0.0.1 port=5432 user=linpin dbname=postgres sslmode=disable"
         (.ok []),
       Event.dbPing (.ok []),
       Event.fmtPrintln "Successfully connected to PostgreSQL!",
       Event.call .createUser,
       Event.dbQueryRow (.insert "qazws" "qazws@example.com")
         (.err "pq: duplicate key value violates unique constraint"),
       Event.fmtPrintf "Created user with ID: %d name: %s\n" [.int 0, .str "qazws"],
       Event.call .getAllUsers,
       Event.dbQuery .selectAll (.ok []),
       Event.rowsClose,
       Event.fmtPrintln "All users:",
       Event.dbClose (.ok [])] := by
  have hp : psqlInfo insertThenList =
      "host=127.0.0.1 port=5432 user=linpin dbname=postgres sslmode=disable" := by decide
  have f1 : insertThenList.help = false := rfl
  have f2 : insertThenList.holdconn = false := rfl
  have f3 : insertThenList.recreate = false := rfl
  have f4 : insertThenList.insertone = true := rfl
  have f5 : insertThenList.selectone = false := rfl
  have f6 : insertThenList.updateone = false := rfl
  have f7 : insertThenList.selectall = true := rfl
  have f8 : insertThenList.delone = false := rfl
  have f9 : insertThenList.delall = false := rfl
  have f10 : insertThenList.usetrans = false := rfl
  have f11 : insertThenList.usetwophase = false := rfl
  simp [main, initFlagSet, initDB, main.body, main.holdconn, main.recreate, main.insertone,
    main.selectone, main.updateone, main.selectall, main.delone, main.delall, main.usetrans,
    main.usetwophase, f1, f2, f3, f4, f5, f6, f7, f8, f9, f10, f11, bind, Prog.bind, pure,
    withDefer, hp, randomName_ret, createUser, getAllUsers, getAllUsers.loop, main.printUsers,
    emit, ask, World.drawn, exitCode, Outcome.world, rejectInsert, World.ofLists, Reply.error,
    nameOf_zero]

theorem main_selectOnly :
    main selectOnly World.quiet = .exit 1
      { World.quiet with
        oracle := fun _ => .ok []
        trace :=
          [Event.logPrintln [.str "connection string:",
             .str "host=127.0.0.1 port=5432 user=linpin dbname=postgres sslmode=disable"],
           Event.sqlOpen "host=127.0.0.1 port=5432 user=linpin dbname=postgres sslmode=disable"
             (.ok []),
           Event.dbPing (.ok []),
           Event.fmtPrintln "Successfully connected to PostgreSQL!",
           Event.call .getUserByID,
           Event.dbQueryRow (.selectByID 1) (.ok []),
           Event.scan (some "sql: no rows in result set"),
           Event.logFatal [.str "Failed to get user:",
             .err (some "sql: no rows in result set")]] } := by
  have hp : psqlInfo selectOnly =
      "host=127.0.0.1 port=5432 user=linpin dbname=postgres sslmode=disable" := by decide
  have f1 : selectOnly.help = false := rfl
  have f2 : selectOnly.holdconn = false := rfl
  have f3 : selectOnly.recreate = false := rfl
  have f4 : selectOnly.insertone = false := rfl
  have f5 : selectOnly.selectone = true := rfl
  simp [main, initFlagSet, initDB, main.body, main.holdconn, main.recreate, main.insertone,
    main.selectone, f1, f2, f3, f4, f5, bind, Prog.bind, pure,
    withDefer, hp, randomInt_ret, getUserByID, rowScan, logFatal,
    emit, ask, World.drawn, World.quiet, World.ofLists, Reply.error]

/-- C4, evaluated on `-selectone` with a store that has no row for the
identifier: the connection is opened, `log.Fatal` ends the process with status
1, and the trace contains no close; the call deferred by `defer db.Close()` has
not run. -/
theorem main_fatal_skips_close :
    exitCode (main selectOnly World.quiet) = 1 ∧
    opensConnection (main selectOnly World.quiet).world.trace = true ∧
    closesConnection (main selectOnly World.quiet).world.trace = false := by
  rw [main_selectOnly]
  simp [exitCode, Outcome.world, opensConnection, closesConnection, Event.isClose]

/-- What `main` does with the deferred close, on every path: if it returns,
the close is the last event and the only close; if the process exits
(`log.Fatal`, or `help`), the trace has no close; `main` never panics. -/
theorem main_closes_on_return (f : Flags) (w : World) :
    (∀ w', main f w = .ret () w' →
      ∃ evs r, w'.trace = w.trace ++ evs ++ [Event.dbClose r] ∧ closesConnection evs = false) ∧
    (∀ c w', main f w = .exit c w' →
      ∃ evs, w'.trace = w.trace ++ evs ∧ closesConnection evs = false) ∧
    (∀ w', main f w ≠ .panic w') := by
  have hcl : ∀ evs : List Event, (∀ e ∈ evs, e.isClose = false) → closesConnection evs = false := by
    intro evs h
    simpa [closesConnection] using h
  cases hhelp : f.help with
  | true =>
    rw [main_help f w hhelp]
    refine ⟨fun w' h => by simp at h, fun c w' h => ?_, fun w' h => by simp at h⟩
    refine ⟨[.usage], ?_, by simp [closesConnection, Event.isClose]⟩
    simp only [Outcome.exit.injEq] at h
    rw [← h.2]; rfl
  | false =>
    obtain ⟨evs, hc, h | h⟩ := main_outcome f w hhelp
    · obtain ⟨r, w1, hm, ht, _⟩ := h
      rw [hm]
      refine ⟨fun w' h => ?_, fun c w' h => by simp at h, fun w' h => by simp at h⟩
      simp only [Outcome.ret.injEq, true_and] at h
      exact ⟨evs, r, h ▸ ht, hcl evs hc⟩
    · obtain ⟨w1, hm, ht, _⟩ := h
      rw [hm]
      refine ⟨fun w' h => by simp at h, fun c w' h => ?_, fun w' h => by simp at h⟩
      simp only [Outcome.exit.injEq] at h
      exact ⟨evs, h.2 ▸ ht, hcl evs hc⟩

/-- C1 at the default flags (no password) and with the password `secret`. -/
theorem initDB_descriptor_witness :
    psqlInfo Flags.default =
      "host=127.0.0.1 port=5432 user=linpin dbname=postgres sslmode=disable" ∧
    psqlInfo { Flags.default with password := "secret" } =
      "host=127.0.0.1 port=5432 user=linpin password=secret dbname=postgres sslmode=disable" :=
  ⟨((initDB_descriptor Flags.default World.quiet).1 rfl).trans (by decide),
   ((initDB_descriptor { Flags.default with password := "secret" } World.quiet).2.1
      (by decide)).trans (by decide)⟩

end PgSysbench
